import Mathlib

/-!
Shallow embedding of the LogiFlow backend (main.py, schemas.py) and its
document-store adapter, with theorems settling the spec claims.

Conventions: Python floats are modelled as `ℚ`; `datetime` values as `ℚ`
timestamps; loosely-typed stored documents may lack a timestamp (`Option ℚ`).
The module `database.py` is not part of the sources, so the store adapter is
modelled from the spec (§4.1) where noted.
-/

namespace LogiFlow

/-- Python `round(x)` to an integer: round-half-to-even (banker's rounding),
modelled over `ℚ`. -/
def pyRound (x : ℚ) : ℤ :=
  if x - ⌊x⌋ < 1/2 then ⌊x⌋
  else if 1/2 < x - ⌊x⌋ then ⌊x⌋ + 1
  else if ⌊x⌋ % 2 = 0 then ⌊x⌋ else ⌊x⌋ + 1

/-- Python `round(x, 2)` over `ℚ`, as used in `create_quote` (main.py line 81). -/
def round2 (x : ℚ) : ℚ := (pyRound (x * 100) : ℚ) / 100

/-- `multipliers.get(payload.mode, 1.0)` with
`multipliers = {"sea": 1.0, "road": 1.2, "air": 2.0}` (main.py lines 79-80). -/
def multiplier (mode : String) : ℚ :=
  if mode = "sea" then 1 else if mode = "road" then 12/10 else if mode = "air" then 2 else 1

/-- `{"sea": 21, "road": 7, "air": 3}.get(payload.mode, 14)` (main.py line 82). -/
def etaDays (mode : String) : ℤ :=
  if mode = "sea" then 21 else if mode = "road" then 7 else if mode = "air" then 3 else 14

/-- The price expression of main.py line 81:
`round(base + m * (payload.weight_kg * 0.8 + payload.volume_cbm * 20), 2)`. -/
def quotePrice (mode : String) (weight_kg volume_cbm : ℚ) : ℚ :=
  round2 (50 + multiplier mode * (weight_kg * (8/10) + volume_cbm * 20))

/-- The `Literal["air", "sea", "road"]` constraint on `mode`
(schemas.py lines 20 and 30). -/
def ModeOK (m : String) : Prop := m = "air" ∨ m = "sea" ∨ m = "road"

instance (m : String) : Decidable (ModeOK m) := by
  unfold ModeOK; infer_instance

/-- The `Literal[...]` constraint on `Shipment.status` (schemas.py lines 35-37). -/
def StatusOK (s : String) : Prop :=
  s = "created" ∨ s = "booked" ∨ s = "in_transit" ∨ s = "customs" ∨
    s = "out_for_delivery" ∨ s = "delivered"

instance (s : String) : Decidable (StatusOK s) := by
  unfold StatusOK; infer_instance

/-- Request body of `POST /api/quotes` (main.py lines 56-61). All fields are
plain `str` / `float` with no range or `Literal` constraints. -/
structure QuoteRequest where
  origin : String
  destination : String
  mode : String
  weight_kg : ℚ
  volume_cbm : ℚ
deriving DecidableEq

/-- Request body of `POST /api/shipments` (main.py lines 63-65): the
`QuoteRequest` fields plus shipper fields, again unconstrained. -/
structure BookShipmentRequest where
  origin : String
  destination : String
  mode : String
  weight_kg : ℚ
  volume_cbm : ℚ
  shipper_name : String
  shipper_email : String
deriving DecidableEq

/-- The `Quote` entity (schemas.py lines 17-24). -/
structure Quote where
  origin : String
  destination : String
  mode : String
  weight_kg : ℚ
  volume_cbm : ℚ
  price_usd : ℚ
  eta_days : ℤ
deriving DecidableEq

/-- pydantic validation of `Quote` (schemas.py lines 17-24): `mode` must satisfy
its `Literal`, and `weight_kg`, `volume_cbm`, `price_usd`, `eta_days` their
`gt=0` constraints. -/
def Quote.Valid (q : Quote) : Prop :=
  ModeOK q.mode ∧ 0 < q.weight_kg ∧ 0 < q.volume_cbm ∧ 0 < q.price_usd ∧ 0 < q.eta_days

instance (q : Quote) : Decidable q.Valid := by
  unfold Quote.Valid; infer_instance

/-- `Quote(...)` as called by the handlers: pydantic raises a `ValidationError`
(here: `none`) unless all field constraints hold. -/
def mkQuote (origin destination mode : String) (weight_kg volume_cbm price_usd : ℚ)
    (eta_days : ℤ) : Option Quote :=
  let q : Quote := ⟨origin, destination, mode, weight_kg, volume_cbm, price_usd, eta_days⟩
  if q.Valid then some q else none

/-- The `Shipment` entity (schemas.py lines 26-38). -/
structure Shipment where
  tracking_number : String
  origin : String
  destination : String
  mode : String
  weight_kg : ℚ
  volume_cbm : ℚ
  shipper_name : String
  shipper_email : String
  status : String
  quote_id : Option String
deriving DecidableEq

/-- pydantic validation of `Shipment` (schemas.py lines 26-38): `Literal` on
`mode` and `status`, `gt=0` on `weight_kg` and `volume_cbm`. -/
def Shipment.Valid (s : Shipment) : Prop :=
  ModeOK s.mode ∧ 0 < s.weight_kg ∧ 0 < s.volume_cbm ∧ StatusOK s.status

instance (s : Shipment) : Decidable s.Valid := by
  unfold Shipment.Valid; infer_instance

/-- `Shipment(...)` as called by `book_shipment` (main.py lines 119-128):
`status` and `quote_id` are left at their schema defaults `"created"` / `None`. -/
def mkShipment (tracking_number origin destination mode : String)
    (weight_kg volume_cbm : ℚ) (shipper_name shipper_email : String) : Option Shipment :=
  let s : Shipment := ⟨tracking_number, origin, destination, mode, weight_kg, volume_cbm,
    shipper_name, shipper_email, "created", none⟩
  if s.Valid then some s else none

/-- A stored `trackingevent` document as read back by `get_documents`:
loosely typed, so the timestamp may be absent (spec §4.1). A `TrackingEvent`
written by the service (schemas.py lines 40-45) always carries a timestamp. -/
structure TrackRecord where
  tracking_number : String
  status : String
  location : Option String
  note : Option String
  timestamp : Option ℚ
deriving DecidableEq

/-- Modelled from the spec: the document store behind the absent `database.py`,
one list per collection the service uses, in insertion order. -/
structure Store where
  quotes : List Quote
  shipments : List Shipment
  events : List TrackRecord
deriving DecidableEq

/-- The error conditions a handler can surface (spec §7): a client-side
request-body validation error, a pydantic `ValidationError` raised inside the
handler (surfaced as a server error), `StorageUnavailable`, and `NotFound`. -/
inductive ApiErr where
  | clientValidation
  | serverValidation
  | storageUnavailable
  | notFound
deriving DecidableEq

/-- Observable side conditions of one handler run: whether the price/ETA
computation ran, and which collections were written. -/
structure RunLog where
  computed_price : Bool
  persisted : List String
deriving DecidableEq

/-- Modelled from the spec (§4.1): `create_document("quote", q)` inserts the
document; it fails with `StorageUnavailable` when no store connection is
configured (`db = none`). -/
def create_document_quote (db : Option Store) (q : Quote) : Except ApiErr Store :=
  match db with
  | none => .error .storageUnavailable
  | some st => .ok { st with quotes := st.quotes ++ [q] }

/-- Modelled from the spec (§4.1): `create_document("shipment", s)`. -/
def create_document_shipment (db : Option Store) (s : Shipment) : Except ApiErr Store :=
  match db with
  | none => .error .storageUnavailable
  | some st => .ok { st with shipments := st.shipments ++ [s] }

/-- Modelled from the spec (§4.1): `create_document("trackingevent", e)`. -/
def create_document_event (db : Option Store) (e : TrackRecord) : Except ApiErr Store :=
  match db with
  | none => .error .storageUnavailable
  | some st => .ok { st with events := st.events ++ [e] }

/-- Modelled from the spec (§4.1): `get_documents("trackingevent",
{"tracking_number": tn}, limit)` returns up to `limit` matching stored
documents; the default `limit` is 50. -/
def get_documents_events (st : Store) (tn : String) (limit : ℕ) : List TrackRecord :=
  (st.events.filter fun e => e.tracking_number == tn).take limit

/-- `GET /` (main.py lines 21-23): always answers the liveness message,
independent of the store handle. -/
def read_root (_db : Option Store) : Except ApiErr String :=
  .ok "LogiFlow backend running"

/-- FastAPI request-body validation for `QuoteRequest` (main.py lines 56-61):
the model declares no field constraints, so every well-typed body passes. -/
def QuoteRequest.boundaryValid (_p : QuoteRequest) : Bool := true

/-- FastAPI request-body validation for `BookShipmentRequest`
(main.py lines 63-65): no field constraints either. -/
def BookShipmentRequest.boundaryValid (_p : BookShipmentRequest) : Bool := true

/-- `POST /api/quotes` (main.py lines 75-93): body validation, then the price
and ETA computation (lines 78-82, unconditional), then `Quote(...)` (which can
raise a pydantic error), then `create_document("quote", quote)`. -/
def create_quote (db : Option Store) (p : QuoteRequest) :
    Except ApiErr (Quote × Store) × RunLog :=
  if p.boundaryValid then
    let price := quotePrice p.mode p.weight_kg p.volume_cbm
    let eta := etaDays p.mode
    match mkQuote p.origin p.destination p.mode p.weight_kg p.volume_cbm price eta with
    | none => (.error .serverValidation, ⟨true, []⟩)
    | some q =>
      match create_document_quote db q with
      | .error e => (.error e, ⟨true, []⟩)
      | .ok st => (.ok (q, st), ⟨true, ["quote"]⟩)
  else (.error .clientValidation, ⟨false, []⟩)

/-- The population `string.ascii_uppercase + string.digits` of
main.py line 117. -/
def trackingAlphabet : List Char :=
  "ABCDEFGHIJKLMNOPQRSTUVWXYZ0123456789".toList

/-- `"LGF-" + ''.join(random.choices(string.ascii_uppercase + string.digits,
k=8))` (main.py line 117), as a function of the drawn characters. -/
def genTracking (picks : List Char) : String :=
  "LGF-" ++ String.mk picks

/-- `POST /api/shipments` (main.py lines 113-133): body validation, tracking
number generation, `Shipment(...)`, persist it, then construct and persist the
initial `TrackingEvent` with status `"created"` and location = origin
(line 131), whose timestamp defaults to the current time `now`. -/
def book_shipment (db : Option Store) (p : BookShipmentRequest) (picks : List Char)
    (now : ℚ) : Except ApiErr (Shipment × Store) × RunLog :=
  if p.boundaryValid then
    let tracking := genTracking picks
    match mkShipment tracking p.origin p.destination p.mode p.weight_kg p.volume_cbm
        p.shipper_name p.shipper_email with
    | none => (.error .serverValidation, ⟨false, []⟩)
    | some s =>
      match create_document_shipment db s with
      | .error e => (.error e, ⟨false, []⟩)
      | .ok st1 =>
        let event : TrackRecord := ⟨tracking, "created", some p.origin, none, some now⟩
        match create_document_event (some st1) event with
        | .error e => (.error e, ⟨false, ["shipment"]⟩)
        | .ok st2 => (.ok (s, st2), ⟨false, ["shipment", "trackingevent"]⟩)
  else (.error .clientValidation, ⟨false, []⟩)

/-- The sort key `lambda e: e.get("timestamp")` of main.py line 148, read back
as `getD 0` where a comparison is known to involve two present timestamps. -/
def tsKey (e : TrackRecord) : ℚ := e.timestamp.getD 0

/-- Python `a < b` on the sort keys produced by `lambda e: e.get("timestamp")`:
comparing `None` with anything (including `None`) raises `TypeError`, modelled
as `none`; two present timestamps compare numerically. -/
def pyLt (a b : Option ℚ) : Option Bool :=
  match a, b with
  | some x, some y => some (decide (x < y))
  | _, _ => none

/-- The key comparison `ISLT` that CPython's list sort performs between two
records under the key function of main.py line 148. -/
def pyKeyLt (a b : TrackRecord) : Option Bool := pyLt a.timestamp b.timestamp

/-- Tail of CPython `count_run`'s strictly-descending scan: how many further
elements continue the strict descent below `prev`; `none` when a key
comparison raises. -/
def countDesc : TrackRecord → List TrackRecord → Option ℕ
  | _, [] => some 0
  | prev, c :: rest =>
    match pyKeyLt c prev with
    | none => none
    | some true => (countDesc c rest).map (· + 1)
    | some false => some 0

/-- Tail of CPython `count_run`'s ascending scan: how many further elements
continue the (weak) ascent above `prev`; `none` when a key comparison
raises. -/
def countAsc : TrackRecord → List TrackRecord → Option ℕ
  | _, [] => some 0
  | prev, c :: rest =>
    match pyKeyLt c prev with
    | none => none
    | some true => some 0
    | some false => (countAsc c rest).map (· + 1)

/-- CPython `count_run`: the length of the maximal initial weakly-ascending
(or strictly-descending) run together with the descending flag; `none` when a
key comparison raises, in which case the array has not been touched yet. -/
def countRun : List TrackRecord → Option (ℕ × Bool)
  | [] => some (0, false)
  | [_] => some (1, false)
  | a :: b :: rest =>
    match pyKeyLt b a with
    | none => none
    | some true => (countDesc b rest).map fun n => (n + 2, true)
    | some false => (countAsc b rest).map fun n => (n + 2, false)

/-- Insertion at the position CPython `binarysort`'s binary search computes for
a sorted prefix: after every element whose key is ≤ the pivot's (upper bound,
keeping the sort stable). The linear scan lands on the same position the
binary search does. -/
def binInsert (pivot : TrackRecord) : List TrackRecord → List TrackRecord
  | [] => [pivot]
  | a :: l => if tsKey a ≤ tsKey pivot then a :: binInsert pivot l else pivot :: a :: l

/-- CPython `binarysort` over the elements after the initial run: each next
pivot is inserted into the sorted prefix. Every element already in the prefix
carries a timestamp (the initial run passed its comparisons and so does every
inserted pivot), so a key comparison raises exactly when the pivot lacks a
timestamp — that raise happens on the pivot's first comparison, aborting the
sort with the array in its current state: the sorted-so-far prefix followed by
the untouched remainder. -/
def binarysort (sorted : List TrackRecord) : List TrackRecord → List TrackRecord
  | [] => sorted
  | e :: rest =>
    if e.timestamp.isSome then binarysort (binInsert e sorted) rest
    else sorted ++ e :: rest

/-- CPython `list.sort(key=lambda e: e.get("timestamp"))` for lists shorter
than 64 elements — always the case here, since the adapter returns at most 50
records, so `minrun` equals the list length and the sort is a single
`count_run` (reversing a strictly-descending initial run) extended to the whole
list by `binarysort`. A raising key comparison aborts the in-place sort and
leaves the partially permuted array; the surrounding `try/except: pass` of
main.py lines 147-150 then swallows the `TypeError` and the handler returns
the array in that state. -/
def pySort (l : List TrackRecord) : List TrackRecord :=
  match countRun l with
  | none => l
  | some (n, true) => binarysort ((l.take n).reverse) (l.drop n)
  | some (n, false) => binarysort (l.take n) (l.drop n)

/-- `GET /api/track/{tracking_number}` (main.py lines 141-151). -/
def get_tracking (db : Option Store) (tn : String) :
    Except ApiErr (String × List TrackRecord) :=
  match db with
  | none => .error .storageUnavailable
  | some st =>
    let events := get_documents_events st tn 50
    if events.isEmpty then .error .notFound
    else .ok (tn, pySort events)


/-! ### Helper lemmas -/

theorem floor_le_pyRound (x : ℚ) : ⌊x⌋ ≤ pyRound x := by
  unfold pyRound
  split_ifs <;> omega

theorem pyRound_intCast (n : ℤ) : pyRound (n : ℚ) = n := by
  unfold pyRound
  norm_num [Int.floor_intCast]

theorem round2_eq_of_eq_intCast (x : ℚ) (n : ℤ) (h : x * 100 = (n : ℚ)) :
    round2 x = (n : ℚ) / 100 := by
  unfold round2
  rw [h, pyRound_intCast]

theorem round2_pos (x : ℚ) (hx : 1 ≤ x) : 0 < round2 x := by
  have h1 : (100 : ℤ) ≤ ⌊x * 100⌋ := by
    rw [Int.le_floor]
    push_cast
    linarith
  have h2 := floor_le_pyRound (x * 100)
  have h3 : (0 : ℤ) < pyRound (x * 100) := by omega
  unfold round2
  have h4 : (0 : ℚ) < (pyRound (x * 100) : ℚ) := by exact_mod_cast h3
  positivity

theorem one_le_multiplier (mode : String) : 1 ≤ multiplier mode := by
  unfold multiplier
  split_ifs <;> norm_num

theorem etaDays_pos (mode : String) : 0 < etaDays mode := by
  unfold etaDays
  split_ifs <;> norm_num

theorem multiplier_default (mode : String) (h : ¬ ModeOK mode) : multiplier mode = 1 := by
  unfold ModeOK at h
  push_neg at h
  obtain ⟨h1, h2, h3⟩ := h
  unfold multiplier
  rw [if_neg h2, if_neg h3, if_neg h1]

theorem etaDays_default (mode : String) (h : ¬ ModeOK mode) : etaDays mode = 14 := by
  unfold ModeOK at h
  push_neg at h
  obtain ⟨h1, h2, h3⟩ := h
  unfold etaDays
  rw [if_neg h2, if_neg h3, if_neg h1]

theorem quotePrice_pos (mode : String) (w v : ℚ) (hw : 0 < w) (hv : 0 < v) :
    0 < quotePrice mode w v := by
  unfold quotePrice
  apply round2_pos
  have hm := one_le_multiplier mode
  have hin : 0 < w * (8/10) + v * 20 := by nlinarith
  nlinarith

theorem quoteOf_valid (p : QuoteRequest) (hm : ModeOK p.mode) (hw : 0 < p.weight_kg)
    (hv : 0 < p.volume_cbm) :
    Quote.Valid ⟨p.origin, p.destination, p.mode, p.weight_kg, p.volume_cbm,
      quotePrice p.mode p.weight_kg p.volume_cbm, etaDays p.mode⟩ :=
  ⟨hm, hw, hv, quotePrice_pos _ _ _ hw hv, etaDays_pos _⟩

theorem create_quote_ok (st : Store) (p : QuoteRequest) (hm : ModeOK p.mode)
    (hw : 0 < p.weight_kg) (hv : 0 < p.volume_cbm) :
    create_quote (some st) p =
      (.ok (⟨p.origin, p.destination, p.mode, p.weight_kg, p.volume_cbm,
          quotePrice p.mode p.weight_kg p.volume_cbm, etaDays p.mode⟩,
        ⟨st.quotes ++ [⟨p.origin, p.destination, p.mode, p.weight_kg, p.volume_cbm,
          quotePrice p.mode p.weight_kg p.volume_cbm, etaDays p.mode⟩],
         st.shipments, st.events⟩),
       ⟨true, ["quote"]⟩) := by
  unfold create_quote mkQuote
  simp only [QuoteRequest.boundaryValid, if_true]
  rw [if_pos (quoteOf_valid p hm hw hv)]
  rfl


/-! ### Claim theorems: quoting (C1, C2, C3) -/

theorem quotePrice_sea_10_2 : quotePrice "sea" 10 2 = 98 := by
  have hm1 : multiplier "sea" = 1 := by unfold multiplier; rw [if_pos rfl]
  unfold quotePrice
  rw [hm1, one_mul, round2_eq_of_eq_intCast _ 9800 (by norm_num)]
  norm_num

theorem quotePrice_air_100_5 : quotePrice "air" 100 5 = 410 := by
  have hm2 : multiplier "air" = 2 := by
    unfold multiplier
    rw [if_neg (by decide), if_neg (by decide), if_pos rfl]
  unfold quotePrice
  rw [hm2, round2_eq_of_eq_intCast _ 41000 (by norm_num)]
  norm_num

/-- C1: for every quote request with mode in {sea, road, air} and positive
weight and volume, `POST /api/quotes` succeeds and returns a `Quote` whose
`price_usd` is `round(50 + multiplier(mode) * (weight_kg*0.8 + volume_cbm*20), 2)`
and whose `eta_days` comes from the mode table (21/7/3). -/
theorem create_quote_price_formula (st : Store) (p : QuoteRequest)
    (hm : ModeOK p.mode) (hw : 0 < p.weight_kg) (hv : 0 < p.volume_cbm) :
    ∃ st' : Store, create_quote (some st) p =
      (.ok (⟨p.origin, p.destination, p.mode, p.weight_kg, p.volume_cbm,
        round2 (50 + multiplier p.mode * (p.weight_kg * (8/10) + p.volume_cbm * 20)),
        etaDays p.mode⟩, st'), ⟨true, ["quote"]⟩) :=
  ⟨_, create_quote_ok st p hm hw hv⟩

/-- Witness for C1 at the two inputs named in the claim: (sea, 10, 2) prices at
98 with ETA 21, and (air, 100, 5) prices at 410 with ETA 3. -/
theorem create_quote_price_formula_witness :
    (∃ st' : Store, create_quote (some ⟨[], [], []⟩) ⟨"A", "B", "sea", 10, 2⟩ =
      (.ok (⟨"A", "B", "sea", 10, 2, 98, 21⟩, st'), ⟨true, ["quote"]⟩)) ∧
    (∃ st' : Store, create_quote (some ⟨[], [], []⟩) ⟨"A", "B", "air", 100, 5⟩ =
      (.ok (⟨"A", "B", "air", 100, 5, 410, 3⟩, st'), ⟨true, ["quote"]⟩)) := by
  constructor
  · obtain ⟨st', h⟩ := create_quote_price_formula ⟨[], [], []⟩ ⟨"A", "B", "sea", 10, 2⟩
      (by decide) (by decide) (by decide)
    dsimp only at h
    rw [show round2 (50 + multiplier "sea" * ((10 : ℚ) * (8/10) + 2 * 20)) = 98 from
      quotePrice_sea_10_2, show etaDays "sea" = 21 from by unfold etaDays; rw [if_pos rfl]] at h
    exact ⟨st', h⟩
  · obtain ⟨st', h⟩ := create_quote_price_formula ⟨[], [], []⟩ ⟨"A", "B", "air", 100, 5⟩
      (by decide) (by decide) (by decide)
    dsimp only at h
    rw [show round2 (50 + multiplier "air" * ((100 : ℚ) * (8/10) + 5 * 20)) = 410 from
      quotePrice_air_100_5, show etaDays "air" = 3 from by
        unfold etaDays; rw [if_neg (by decide), if_neg (by decide), if_pos rfl]] at h
    exact ⟨st', h⟩

/-- C2 counterexample: at the quote request ("A", "B", "sea", weight −1,
volume 2) the handler is indeed rejected with nothing persisted, but the
price/ETA computation has already run (`computed_price = true`) and the
rejection is the in-handler pydantic error, not a client-side boundary
validation error — refuting the claim that rejection happens before the price
computation and at the boundary. -/
theorem nonpositive_weight_counterexample :
    (create_quote (some ⟨[], [], []⟩) ⟨"A", "B", "sea", -1, 2⟩).2.computed_price = true ∧
    (create_quote (some ⟨[], [], []⟩) ⟨"A", "B", "sea", -1, 2⟩).1 = .error .serverValidation ∧
    ApiErr.serverValidation ≠ ApiErr.clientValidation := by
  have hnv : ¬ Quote.Valid ⟨"A", "B", "sea", -1, 2,
      quotePrice "sea" (-1) 2, etaDays "sea"⟩ := by
    rintro ⟨-, hw, -⟩
    revert hw; decide
  have hrun : create_quote (some ⟨[], [], []⟩) ⟨"A", "B", "sea", -1, 2⟩ =
      (.error .serverValidation, ⟨true, []⟩) := by
    unfold create_quote mkQuote
    simp only [QuoteRequest.boundaryValid, if_true]
    rw [if_neg hnv]
  exact ⟨by rw [hrun], by rw [hrun], by decide⟩

/-- C2 (amended): a quote or booking request with `weight_kg ≤ 0` or
`volume_cbm ≤ 0` is rejected by entity-construction validation inside the
handler — a server-side pydantic error, not a client-side boundary error — and
nothing is persisted; in the quote path the price/ETA computation has already
run by then (`computed_price = true`), while the booking path computes no
price. -/
theorem nonpositive_rejected (db : Option Store) (p : QuoteRequest)
    (b : BookShipmentRequest) (picks : List Char) (now : ℚ)
    (hp : p.weight_kg ≤ 0 ∨ p.volume_cbm ≤ 0) (hb : b.weight_kg ≤ 0 ∨ b.volume_cbm ≤ 0) :
    create_quote db p = (.error .serverValidation, ⟨true, []⟩) ∧
    book_shipment db b picks now = (.error .serverValidation, ⟨false, []⟩) := by
  constructor
  · have hnv : ¬ Quote.Valid ⟨p.origin, p.destination, p.mode, p.weight_kg, p.volume_cbm,
        quotePrice p.mode p.weight_kg p.volume_cbm, etaDays p.mode⟩ := by
      rintro ⟨-, hw, hv, -⟩
      rcases hp with h | h <;> linarith
    unfold create_quote mkQuote
    simp only [QuoteRequest.boundaryValid, if_true]
    rw [if_neg hnv]
  · have hnv : ¬ Shipment.Valid ⟨genTracking picks, b.origin, b.destination, b.mode,
        b.weight_kg, b.volume_cbm, b.shipper_name, b.shipper_email, "created", none⟩ := by
      rintro ⟨-, hw, hv, -⟩
      rcases hb with h | h <;> linarith
    unfold book_shipment mkShipment
    simp only [BookShipmentRequest.boundaryValid, if_true]
    rw [if_neg hnv]

/-- Witness for C2's amended statement at weight −1. -/
theorem nonpositive_rejected_witness :
    ((-1 : ℚ) ≤ 0 ∨ (2 : ℚ) ≤ 0) ∧
    create_quote (some ⟨[], [], []⟩) ⟨"A", "B", "sea", -1, 2⟩ =
      (.error .serverValidation, ⟨true, []⟩) ∧
    book_shipment (some ⟨[], [], []⟩) ⟨"A", "B", "sea", -1, 2, "N", "e@x"⟩ [] 0 =
      (.error .serverValidation, ⟨false, []⟩) := by
  have h := nonpositive_rejected (some ⟨[], [], []⟩) ⟨"A", "B", "sea", -1, 2⟩
    ⟨"A", "B", "sea", -1, 2, "N", "e@x"⟩ [] 0 (Or.inl (by decide)) (Or.inl (by decide))
  exact ⟨Or.inl (by decide), h.1, h.2⟩

/-- C3 counterexample: a quote request with the unrecognized mode
"unknown-value" (weight 1, volume 1) does not succeed — the `Literal` mode
constraint of the `Quote` schema rejects it at construction, so `POST
/api/quotes` fails instead of returning a Quote. -/
theorem unknown_mode_counterexample :
    (create_quote (some ⟨[], [], []⟩) ⟨"A", "B", "unknown-value", 1, 1⟩).1 =
      .error .serverValidation := by
  have hnv : ¬ Quote.Valid ⟨"A", "B", "unknown-value", 1, 1,
      quotePrice "unknown-value" 1 1, etaDays "unknown-value"⟩ := by
    rintro ⟨hm, -⟩
    revert hm; decide
  have hrun : create_quote (some ⟨[], [], []⟩) ⟨"A", "B", "unknown-value", 1, 1⟩ =
      (.error .serverValidation, ⟨true, []⟩) := by
    unfold create_quote mkQuote
    simp only [QuoteRequest.boundaryValid, if_true]
    rw [if_neg hnv]
  rw [hrun]

/-- C3 (amended): for a quote request whose mode is outside {sea, road, air},
the pricing tables do default to multiplier 1.0 and `eta_days` 14, but the
request does not succeed: the `Quote` constructor rejects the mode, the handler
fails with a validation error, and nothing is persisted. -/
theorem unknown_mode_rejected (db : Option Store) (p : QuoteRequest)
    (hm : ¬ ModeOK p.mode) :
    multiplier p.mode = 1 ∧ etaDays p.mode = 14 ∧
    create_quote db p = (.error .serverValidation, ⟨true, []⟩) := by
  refine ⟨multiplier_default _ hm, etaDays_default _ hm, ?_⟩
  have hnv : ¬ Quote.Valid ⟨p.origin, p.destination, p.mode, p.weight_kg, p.volume_cbm,
      quotePrice p.mode p.weight_kg p.volume_cbm, etaDays p.mode⟩ := fun hval => hm hval.1
  unfold create_quote mkQuote
  simp only [QuoteRequest.boundaryValid, if_true]
  rw [if_neg hnv]

/-- Witness for C3's amended statement at mode "unknown-value". -/
theorem unknown_mode_rejected_witness :
    ¬ ModeOK "unknown-value" ∧
    multiplier "unknown-value" = 1 ∧ etaDays "unknown-value" = 14 ∧
    create_quote (some ⟨[], [], []⟩) ⟨"A", "B", "unknown-value", 1, 1⟩ =
      (.error .serverValidation, ⟨true, []⟩) := by
  have h := unknown_mode_rejected (some ⟨[], [], []⟩) ⟨"A", "B", "unknown-value", 1, 1⟩
    (by decide)
  exact ⟨by decide, h.1, h.2.1, h.2.2⟩


/-! ### Booking helpers -/

theorem shipmentOf_valid (b : BookShipmentRequest) (tracking : String)
    (hm : ModeOK b.mode) (hw : 0 < b.weight_kg) (hv : 0 < b.volume_cbm) :
    Shipment.Valid ⟨tracking, b.origin, b.destination, b.mode, b.weight_kg, b.volume_cbm,
      b.shipper_name, b.shipper_email, "created", none⟩ :=
  ⟨hm, hw, hv, Or.inl rfl⟩

theorem book_shipment_ok (st : Store) (b : BookShipmentRequest) (picks : List Char)
    (now : ℚ) (hm : ModeOK b.mode) (hw : 0 < b.weight_kg) (hv : 0 < b.volume_cbm) :
    book_shipment (some st) b picks now =
      (.ok (⟨genTracking picks, b.origin, b.destination, b.mode, b.weight_kg, b.volume_cbm,
          b.shipper_name, b.shipper_email, "created", none⟩,
        ⟨st.quotes,
         st.shipments ++ [⟨genTracking picks, b.origin, b.destination, b.mode, b.weight_kg,
           b.volume_cbm, b.shipper_name, b.shipper_email, "created", none⟩],
         st.events ++ [⟨genTracking picks, "created", some b.origin, none, some now⟩]⟩),
       ⟨false, ["shipment", "trackingevent"]⟩) := by
  unfold book_shipment mkShipment
  simp only [BookShipmentRequest.boundaryValid, if_true]
  rw [if_pos (shipmentOf_valid b (genTracking picks) hm hw hv)]
  rfl

/-! ### Claim theorems: degraded mode (C5), booking (C6, C9) -/

/-- C5: with no store connection configured (`db = none`), `POST /api/quotes`
and `POST /api/shipments` fail with the service-unavailable condition, while
`GET /` still answers its liveness message. -/
theorem degraded_mode_behavior (p : QuoteRequest) (b : BookShipmentRequest)
    (picks : List Char) (now : ℚ)
    (hpm : ModeOK p.mode) (hpw : 0 < p.weight_kg) (hpv : 0 < p.volume_cbm)
    (hbm : ModeOK b.mode) (hbw : 0 < b.weight_kg) (hbv : 0 < b.volume_cbm) :
    (create_quote none p).1 = .error .storageUnavailable ∧
    (book_shipment none b picks now).1 = .error .storageUnavailable ∧
    ∀ db : Option Store, read_root db = .ok "LogiFlow backend running" := by
  refine ⟨?_, ?_, fun _ => rfl⟩
  · have hrun : create_quote none p = (.error .storageUnavailable, ⟨true, []⟩) := by
      unfold create_quote mkQuote
      simp only [QuoteRequest.boundaryValid, if_true]
      rw [if_pos (quoteOf_valid p hpm hpw hpv)]
      rfl
    rw [hrun]
  · have hrun : book_shipment none b picks now = (.error .storageUnavailable, ⟨false, []⟩) := by
      unfold book_shipment mkShipment
      simp only [BookShipmentRequest.boundaryValid, if_true]
      rw [if_pos (shipmentOf_valid b (genTracking picks) hbm hbw hbv)]
      rfl
    rw [hrun]

/-- Witness for C5 at concrete valid requests. -/
theorem degraded_mode_behavior_witness :
    ModeOK "sea" ∧
    (create_quote none ⟨"A", "B", "sea", 1, 1⟩).1 = .error .storageUnavailable ∧
    (book_shipment none ⟨"A", "B", "sea", 1, 1, "N", "e@x"⟩ [] 0).1 =
      .error .storageUnavailable ∧
    read_root none = .ok "LogiFlow backend running" := by
  have h := degraded_mode_behavior ⟨"A", "B", "sea", 1, 1⟩ ⟨"A", "B", "sea", 1, 1, "N", "e@x"⟩
    [] 0 (by decide) (by decide) (by decide) (by decide) (by decide) (by decide)
  exact ⟨by decide, h.1, h.2.1, h.2.2 none⟩

/-- C6: every successful booking persists exactly one new `TrackingEvent`,
with status `"created"`, tracking number equal to the new shipment's, and
location equal to the request's origin; the shipment itself is the only other
document written. -/
theorem booking_creates_one_event (st : Store) (b : BookShipmentRequest)
    (picks : List Char) (now : ℚ)
    (hm : ModeOK b.mode) (hw : 0 < b.weight_kg) (hv : 0 < b.volume_cbm) :
    ∃ (s : Shipment) (st' : Store),
      book_shipment (some st) b picks now =
        (.ok (s, st'), ⟨false, ["shipment", "trackingevent"]⟩) ∧
      s.status = "created" ∧
      st'.events = st.events ++
        [⟨s.tracking_number, "created", some b.origin, none, some now⟩] ∧
      st'.shipments = st.shipments ++ [s] ∧
      st'.quotes = st.quotes :=
  ⟨_, _, book_shipment_ok st b picks now hm hw hv, rfl, rfl, rfl, rfl⟩

/-- Witness for C6 at a concrete booking. -/
theorem booking_creates_one_event_witness :
    ModeOK "air" ∧
    ∃ (s : Shipment) (st' : Store),
      book_shipment (some ⟨[], [], []⟩) ⟨"A", "B", "air", 1, 1, "N", "e@x"⟩ ['Q'] 7 =
        (.ok (s, st'), ⟨false, ["shipment", "trackingevent"]⟩) ∧
      s.status = "created" ∧
      st'.events = [⟨s.tracking_number, "created", some "A", none, some 7⟩] := by
  obtain ⟨s, st', h1, h2, h3, -⟩ := booking_creates_one_event ⟨[], [], []⟩
    ⟨"A", "B", "air", 1, 1, "N", "e@x"⟩ ['Q'] 7 (by decide) (by decide) (by decide)
  exact ⟨by decide, s, st', h1, h2, by simpa using h3⟩

/-- C9: whatever the random draw, the booked shipment's tracking number is
"LGF-" followed by exactly the 8 drawn characters, each from A–Z or 0–9. -/
theorem tracking_number_format (st : Store) (b : BookShipmentRequest)
    (picks : List Char) (now : ℚ)
    (hm : ModeOK b.mode) (hw : 0 < b.weight_kg) (hv : 0 < b.volume_cbm)
    (hlen : picks.length = 8) (hin : ∀ c ∈ picks, c ∈ trackingAlphabet) :
    ∃ (s : Shipment) (st' : Store),
      book_shipment (some st) b picks now =
        (.ok (s, st'), ⟨false, ["shipment", "trackingevent"]⟩) ∧
      s.tracking_number = genTracking picks ∧
      (genTracking picks).toList = 'L' :: 'G' :: 'F' :: '-' :: picks ∧
      (genTracking picks).length = 12 ∧
      ∀ c ∈ picks, ('A' ≤ c ∧ c ≤ 'Z') ∨ ('0' ≤ c ∧ c ≤ '9') := by
  refine ⟨_, _, book_shipment_ok st b picks now hm hw hv, rfl, rfl, ?_, ?_⟩
  · show ('L' :: 'G' :: 'F' :: '-' :: picks).length = 12
    simp [hlen]
  · intro c hc
    have halpha : ∀ c ∈ trackingAlphabet, ('A' ≤ c ∧ c ≤ 'Z') ∨ ('0' ≤ c ∧ c ≤ '9') := by
      decide
    exact halpha c (hin c hc)

/-- Witness for C9 at a concrete draw of 8 alphabet characters. -/
theorem tracking_number_format_witness :
    ['A', 'B', 'C', '1', '2', '3', 'X', '9'].length = 8 ∧
    ∃ (s : Shipment) (st' : Store),
      book_shipment (some ⟨[], [], []⟩) ⟨"A", "B", "road", 1, 1, "N", "e@x"⟩
          ['A', 'B', 'C', '1', '2', '3', 'X', '9'] 0 =
        (.ok (s, st'), ⟨false, ["shipment", "trackingevent"]⟩) ∧
      s.tracking_number = "LGF-ABC123X9" := by
  obtain ⟨s, st', h1, h2, -⟩ := tracking_number_format ⟨[], [], []⟩
    ⟨"A", "B", "road", 1, 1, "N", "e@x"⟩ ['A', 'B', 'C', '1', '2', '3', 'X', '9'] 0
    (by decide) (by decide) (by decide) (by decide) (by decide)
  exact ⟨by decide, s, st', h1, by rw [h2]; rfl⟩


/-! ### Tracking helpers: facts about the modelled CPython sort -/

theorem pyLt_eq_some {a b : Option ℚ} {t : Bool} (h : pyLt a b = some t) :
    ∃ x y, a = some x ∧ b = some y ∧ decide (x < y) = t := by
  cases a with
  | none => simp [pyLt] at h
  | some x =>
    cases b with
    | none => simp [pyLt] at h
    | some y => exact ⟨x, y, rfl, rfl, by simpa [pyLt] using h⟩

theorem pyKeyLt_false_le {a b : TrackRecord} (h : pyKeyLt a b = some false) :
    tsKey b ≤ tsKey a := by
  obtain ⟨x, y, hx, hy, hd⟩ := pyLt_eq_some h
  unfold tsKey
  rw [hx, hy]
  simp only [Option.getD_some]
  exact le_of_not_lt (of_decide_eq_false hd)

theorem pyKeyLt_true_lt {a b : TrackRecord} (h : pyKeyLt a b = some true) :
    tsKey a < tsKey b := by
  obtain ⟨x, y, hx, hy, hd⟩ := pyLt_eq_some h
  unfold tsKey
  rw [hx, hy]
  simp only [Option.getD_some]
  exact of_decide_eq_true hd

theorem pyKeyLt_isSome {a b : TrackRecord} (ha : a.timestamp.isSome)
    (hb : b.timestamp.isSome) :
    pyKeyLt a b = some (decide (tsKey a < tsKey b)) := by
  obtain ⟨x, hx⟩ := Option.isSome_iff_exists.mp ha
  obtain ⟨y, hy⟩ := Option.isSome_iff_exists.mp hb
  unfold pyKeyLt pyLt tsKey
  rw [hx, hy]
  rfl

theorem countAsc_pairwise : ∀ (rest : List TrackRecord) (prev : TrackRecord) (n : ℕ),
    countAsc prev rest = some n →
    (prev :: rest.take n).Pairwise fun a b => tsKey a ≤ tsKey b := by
  intro rest
  induction rest with
  | nil =>
    intro prev n h
    unfold countAsc at h
    cases h
    simp
  | cons c rest ih =>
    intro prev n h
    unfold countAsc at h
    cases hcp : pyKeyLt c prev with
    | none => rw [hcp] at h; exact absurd h (by simp)
    | some t =>
      rw [hcp] at h
      cases t with
      | true =>
        cases h
        simp
      | false =>
        obtain ⟨m, hm, hmn⟩ := Option.map_eq_some'.mp h
        subst hmn
        rw [List.take_succ_cons]
        have hle := pyKeyLt_false_le hcp
        have hp := ih c m hm
        rw [List.pairwise_cons] at hp
        obtain ⟨hc, htail⟩ := hp
        rw [List.pairwise_cons]
        refine ⟨?_, List.pairwise_cons.mpr ⟨hc, htail⟩⟩
        intro x hx
        rcases List.mem_cons.mp hx with rfl | hx
        · exact hle
        · exact le_trans hle (hc x hx)

theorem countDesc_le_head : ∀ (rest : List TrackRecord) (prev : TrackRecord) (n : ℕ),
    countDesc prev rest = some n → ∀ x ∈ rest.take n, tsKey x ≤ tsKey prev := by
  intro rest
  induction rest with
  | nil =>
    intro prev n h
    unfold countDesc at h
    cases h
    simp
  | cons c rest ih =>
    intro prev n h
    unfold countDesc at h
    cases hcp : pyKeyLt c prev with
    | none => rw [hcp] at h; exact absurd h (by simp)
    | some t =>
      rw [hcp] at h
      cases t with
      | false =>
        cases h
        simp
      | true =>
        obtain ⟨m, hm, hmn⟩ := Option.map_eq_some'.mp h
        subst hmn
        rw [List.take_succ_cons]
        intro x hx
        have hlt := pyKeyLt_true_lt hcp
        rcases List.mem_cons.mp hx with rfl | hx
        · exact le_of_lt hlt
        · exact le_trans (ih c m hm x hx) (le_of_lt hlt)

theorem countDesc_rev_pairwise : ∀ (rest : List TrackRecord) (prev : TrackRecord) (n : ℕ),
    countDesc prev rest = some n →
    ((prev :: rest.take n).reverse).Pairwise fun a b => tsKey a ≤ tsKey b := by
  intro rest
  induction rest with
  | nil =>
    intro prev n h
    unfold countDesc at h
    cases h
    simp
  | cons c rest ih =>
    intro prev n h
    unfold countDesc at h
    cases hcp : pyKeyLt c prev with
    | none => rw [hcp] at h; exact absurd h (by simp)
    | some t =>
      rw [hcp] at h
      cases t with
      | false =>
        cases h
        simp
      | true =>
        obtain ⟨m, hm, hmn⟩ := Option.map_eq_some'.mp h
        subst hmn
        rw [List.take_succ_cons, List.reverse_cons]
        apply List.pairwise_append.mpr
        refine ⟨ih c m hm, List.pairwise_singleton _ _, ?_⟩
        intro x hx y hy
        rw [List.mem_singleton] at hy
        subst hy
        rw [List.mem_reverse] at hx
        have hlt := pyKeyLt_true_lt hcp
        rcases List.mem_cons.mp hx with rfl | hx
        · exact le_of_lt hlt
        · exact le_trans (countDesc_le_head rest c m hm x hx) (le_of_lt hlt)

theorem countRun_false_pairwise (l : List TrackRecord) (n : ℕ)
    (h : countRun l = some (n, false)) :
    (l.take n).Pairwise fun a b => tsKey a ≤ tsKey b := by
  cases l with
  | nil =>
    unfold countRun at h
    cases h
    simp
  | cons a t =>
    cases t with
    | nil =>
      unfold countRun at h
      cases h
      simp
    | cons b rest =>
      unfold countRun at h
      dsimp only at h
      cases hab : pyKeyLt b a with
      | none => rw [hab] at h; exact absurd h (by simp)
      | some t2 =>
        rw [hab] at h
        cases t2 with
        | true =>
          obtain ⟨m, hm, hmn⟩ := Option.map_eq_some'.mp h
          simp at hmn
        | false =>
          obtain ⟨m, hm, hmn⟩ := Option.map_eq_some'.mp h
          rw [Prod.mk.injEq] at hmn
          obtain ⟨hn, -⟩ := hmn
          subst hn
          have ht : (a :: b :: rest).take (m + 2) = a :: b :: rest.take m := rfl
          rw [ht]
          have hp := countAsc_pairwise rest b m hm
          have hab_le := pyKeyLt_false_le hab
          rw [List.pairwise_cons] at hp
          obtain ⟨hb, htail⟩ := hp
          rw [List.pairwise_cons]
          refine ⟨?_, List.pairwise_cons.mpr ⟨hb, htail⟩⟩
          intro x hx
          rcases List.mem_cons.mp hx with rfl | hx
          · exact hab_le
          · exact le_trans hab_le (hb x hx)

theorem countRun_true_rev_pairwise (l : List TrackRecord) (n : ℕ)
    (h : countRun l = some (n, true)) :
    ((l.take n).reverse).Pairwise fun a b => tsKey a ≤ tsKey b := by
  cases l with
  | nil =>
    unfold countRun at h
    simp at h
  | cons a t =>
    cases t with
    | nil =>
      unfold countRun at h
      simp at h
    | cons b rest =>
      unfold countRun at h
      dsimp only at h
      cases hab : pyKeyLt b a with
      | none => rw [hab] at h; exact absurd h (by simp)
      | some t2 =>
        rw [hab] at h
        cases t2 with
        | false =>
          obtain ⟨m, hm, hmn⟩ := Option.map_eq_some'.mp h
          simp at hmn
        | true =>
          obtain ⟨m, hm, hmn⟩ := Option.map_eq_some'.mp h
          rw [Prod.mk.injEq] at hmn
          obtain ⟨hn, -⟩ := hmn
          subst hn
          have ht : (a :: b :: rest).take (m + 2) = a :: b :: rest.take m := rfl
          rw [ht, List.reverse_cons]
          apply List.pairwise_append.mpr
          refine ⟨countDesc_rev_pairwise rest b m hm, List.pairwise_singleton _ _, ?_⟩
          intro x hx y hy
          rw [List.mem_singleton] at hy
          subst hy
          rw [List.mem_reverse] at hx
          have hlt := pyKeyLt_true_lt hab
          rcases List.mem_cons.mp hx with rfl | hx
          · exact le_of_lt hlt
          · exact le_trans (countDesc_le_head rest b m hm x hx) (le_of_lt hlt)

theorem countAsc_isSome : ∀ (rest : List TrackRecord) (prev : TrackRecord),
    prev.timestamp.isSome → (∀ e ∈ rest, e.timestamp.isSome) →
    ∃ n, countAsc prev rest = some n := by
  intro rest
  induction rest with
  | nil => exact fun prev _ _ => ⟨0, rfl⟩
  | cons c rest ih =>
    intro prev hp hall
    have hc := hall c (List.mem_cons_self c rest)
    have hcp := pyKeyLt_isSome hc hp
    cases hd : decide (tsKey c < tsKey prev) with
    | true =>
      refine ⟨0, ?_⟩
      unfold countAsc
      rw [hcp, hd]
    | false =>
      obtain ⟨m, hm⟩ := ih c hc fun e he => hall e (List.mem_cons_of_mem c he)
      refine ⟨m + 1, ?_⟩
      unfold countAsc
      rw [hcp, hd, hm]
      rfl

theorem countDesc_isSome : ∀ (rest : List TrackRecord) (prev : TrackRecord),
    prev.timestamp.isSome → (∀ e ∈ rest, e.timestamp.isSome) →
    ∃ n, countDesc prev rest = some n := by
  intro rest
  induction rest with
  | nil => exact fun prev _ _ => ⟨0, rfl⟩
  | cons c rest ih =>
    intro prev hp hall
    have hc := hall c (List.mem_cons_self c rest)
    have hcp := pyKeyLt_isSome hc hp
    cases hd : decide (tsKey c < tsKey prev) with
    | false =>
      refine ⟨0, ?_⟩
      unfold countDesc
      rw [hcp, hd]
    | true =>
      obtain ⟨m, hm⟩ := ih c hc fun e he => hall e (List.mem_cons_of_mem c he)
      refine ⟨m + 1, ?_⟩
      unfold countDesc
      rw [hcp, hd, hm]
      rfl

theorem countRun_isSome (l : List TrackRecord) (hall : ∀ e ∈ l, e.timestamp.isSome) :
    ∃ nd, countRun l = some nd := by
  cases l with
  | nil => exact ⟨(0, false), rfl⟩
  | cons a t =>
    cases t with
    | nil => exact ⟨(1, false), rfl⟩
    | cons b rest =>
      have ha := hall a (by simp)
      have hb := hall b (by simp)
      have hrest : ∀ e ∈ rest, e.timestamp.isSome := fun e he => hall e (by simp [he])
      have hab := pyKeyLt_isSome hb ha
      cases hd : decide (tsKey b < tsKey a) with
      | true =>
        obtain ⟨m, hm⟩ := countDesc_isSome rest b hb hrest
        refine ⟨(m + 2, true), ?_⟩
        unfold countRun
        dsimp only
        rw [hab, hd, hm]
        rfl
      | false =>
        obtain ⟨m, hm⟩ := countAsc_isSome rest b hb hrest
        refine ⟨(m + 2, false), ?_⟩
        unfold countRun
        dsimp only
        rw [hab, hd, hm]
        rfl

theorem binInsert_perm (e : TrackRecord) (l : List TrackRecord) :
    (binInsert e l).Perm (e :: l) := by
  induction l with
  | nil => exact List.Perm.refl _
  | cons a l ih =>
    unfold binInsert
    split
    · exact (ih.cons a).trans (List.Perm.swap e a l)
    · exact List.Perm.refl _

theorem binInsert_mem {x e : TrackRecord} {l : List TrackRecord} :
    x ∈ binInsert e l ↔ x = e ∨ x ∈ l := by
  rw [(binInsert_perm e l).mem_iff, List.mem_cons]

theorem binInsert_pairwise (e : TrackRecord) (l : List TrackRecord)
    (hs : l.Pairwise fun a b => tsKey a ≤ tsKey b) :
    (binInsert e l).Pairwise fun a b => tsKey a ≤ tsKey b := by
  induction l with
  | nil => simp [binInsert]
  | cons a l ih =>
    rw [List.pairwise_cons] at hs
    obtain ⟨ha, hl⟩ := hs
    unfold binInsert
    split
    · rename_i hae
      rw [List.pairwise_cons]
      refine ⟨?_, ih hl⟩
      intro b hb
      rcases binInsert_mem.mp hb with rfl | hb
      · exact hae
      · exact ha b hb
    · rename_i hae
      rw [List.pairwise_cons]
      refine ⟨?_, List.pairwise_cons.mpr ⟨ha, hl⟩⟩
      intro b hb
      rcases List.mem_cons.mp hb with rfl | hb
      · exact le_of_not_le hae
      · exact le_trans (le_of_not_le hae) (ha b hb)

theorem binarysort_perm : ∀ (rest sorted : List TrackRecord),
    (binarysort sorted rest).Perm (sorted ++ rest) := by
  intro rest
  induction rest with
  | nil => intro sorted; simp [binarysort]
  | cons e rest ih =>
    intro sorted
    unfold binarysort
    split
    · refine (ih (binInsert e sorted)).trans ?_
      refine ((binInsert_perm e sorted).append_right rest).trans ?_
      exact List.perm_middle.symm
    · exact List.Perm.refl _

theorem binarysort_pairwise : ∀ (rest sorted : List TrackRecord),
    sorted.Pairwise (fun a b => tsKey a ≤ tsKey b) →
    (∀ e ∈ rest, e.timestamp.isSome) →
    (binarysort sorted rest).Pairwise fun a b => tsKey a ≤ tsKey b := by
  intro rest
  induction rest with
  | nil => intro sorted hs _; simpa [binarysort] using hs
  | cons e rest ih =>
    intro sorted hs hall
    unfold binarysort
    rw [if_pos (hall e (List.mem_cons_self e rest))]
    exact ih (binInsert e sorted) (binInsert_pairwise e sorted hs)
      fun x hx => hall x (List.mem_cons_of_mem e hx)

theorem pySort_perm (l : List TrackRecord) : (pySort l).Perm l := by
  unfold pySort
  cases h : countRun l with
  | none => exact List.Perm.refl l
  | some nd =>
    obtain ⟨n, desc⟩ := nd
    cases desc with
    | true =>
      refine (binarysort_perm (l.drop n) ((l.take n).reverse)).trans ?_
      have h2 : ((l.take n).reverse ++ l.drop n).Perm (l.take n ++ l.drop n) :=
        (List.reverse_perm _).append_right _
      rw [List.take_append_drop] at h2
      exact h2
    | false =>
      have h2 := binarysort_perm (l.drop n) (l.take n)
      rw [List.take_append_drop] at h2
      exact h2

theorem pySort_pairwise (l : List TrackRecord)
    (hall : ∀ e ∈ l, e.timestamp.isSome) :
    (pySort l).Pairwise fun a b => tsKey a ≤ tsKey b := by
  obtain ⟨⟨n, desc⟩, h⟩ := countRun_isSome l hall
  have hdrop : ∀ e ∈ l.drop n, e.timestamp.isSome :=
    fun e he => hall e (List.drop_subset n l he)
  unfold pySort
  cases desc with
  | true =>
    rw [h]
    exact binarysort_pairwise (l.drop n) ((l.take n).reverse)
      (countRun_true_rev_pairwise l n h) hdrop
  | false =>
    rw [h]
    exact binarysort_pairwise (l.drop n) (l.take n)
      (countRun_false_pairwise l n h) hdrop

theorem get_tracking_ok_of_ne_nil (st : Store) (tn : String)
    (hne : get_documents_events st tn 50 ≠ []) :
    get_tracking (some st) tn = .ok (tn, pySort (get_documents_events st tn 50)) := by
  simp only [get_tracking]
  rw [if_neg (by simpa [List.isEmpty_iff] using hne)]

/-! ### Claim theorems: tracking (C4, C7, C8) -/

/-- C4 counterexample: with 51 stored events for tracking number "X", the
endpoint returns only 50 of them — the adapter's default limit — so the
returned list does not contain every matching stored event. -/
theorem track_limit_counterexample :
    ((Store.mk [] [] (List.replicate 51 ⟨"X", "created", none, none, none⟩)).events.filter
        fun e => e.tracking_number == "X").length = 51 ∧
    get_tracking (some (Store.mk [] [] (List.replicate 51 ⟨"X", "created", none, none, none⟩)))
        "X" =
      .ok ("X", List.replicate 50 ⟨"X", "created", none, none, none⟩) := by
  constructor
  · rfl
  · rfl

/-- C4 (amended): `GET /api/track/x` returns every matching stored event
whenever at most 50 match (the adapter's default limit); with more matches only
the first 50 retrieved are returned. -/
theorem track_returns_matching_upto_limit (st : Store) (tn : String)
    (hlen : (st.events.filter fun e => e.tracking_number == tn).length ≤ 50)
    (hne : (st.events.filter fun e => e.tracking_number == tn) ≠ []) :
    ∃ evs, get_tracking (some st) tn = .ok (tn, evs) ∧
      evs.Perm (st.events.filter fun e => e.tracking_number == tn) := by
  have htake : get_documents_events st tn 50 =
      st.events.filter fun e => e.tracking_number == tn := by
    unfold get_documents_events
    exact List.take_of_length_le hlen
  refine ⟨pySort (get_documents_events st tn 50),
    get_tracking_ok_of_ne_nil st tn (by rw [htake]; exact hne), ?_⟩
  rw [htake] at *
  exact pySort_perm _

/-- Witness for C4's amended statement: a single stored event is returned. -/
theorem track_returns_matching_upto_limit_witness :
    ∃ evs, get_tracking (some ⟨[], [], [⟨"X", "created", none, none, none⟩]⟩) "X" =
        .ok ("X", evs) ∧
      evs.Perm [⟨"X", "created", none, none, none⟩] := by
  have h := track_returns_matching_upto_limit ⟨[], [], [⟨"X", "created", none, none, none⟩]⟩
    "X" (by decide) (by decide)
  simpa using h

/-- C7: `GET /api/track/x` fails with the not-found error exactly when no
stored tracking event has tracking number `x`, and succeeds with
`(x, events)` whenever at least one matching event is stored. -/
theorem track_not_found_or_ok (st : Store) (tn : String) :
    ((st.events.filter fun e => e.tracking_number == tn) = [] →
      get_tracking (some st) tn = .error .notFound) ∧
    ((st.events.filter fun e => e.tracking_number == tn) ≠ [] →
      ∃ evs, get_tracking (some st) tn = .ok (tn, evs)) := by
  constructor
  · intro h
    simp only [get_tracking, get_documents_events]
    rw [h]
    rfl
  · intro h
    have hne : get_documents_events st tn 50 ≠ [] := by
      unfold get_documents_events
      intro hnil
      rcases List.take_eq_nil_iff.mp hnil with h0 | hfil
      · exact absurd h0 (by decide)
      · exact h hfil
    exact ⟨pySort (get_documents_events st tn 50), get_tracking_ok_of_ne_nil st tn hne⟩

/-- Witness for C7: the empty store yields 404 for "X"; a store holding one
event for "X" yields a 200 payload. -/
theorem track_not_found_or_ok_witness :
    get_tracking (some ⟨[], [], []⟩) "X" = .error .notFound ∧
    ∃ evs, get_tracking (some ⟨[], [], [⟨"X", "created", none, none, none⟩]⟩) "X" =
      .ok ("X", evs) := by
  refine ⟨(track_not_found_or_ok ⟨[], [], []⟩ "X").1 rfl, ?_⟩
  exact (track_not_found_or_ok ⟨[], [], [⟨"X", "created", none, none, none⟩]⟩ "X").2 (by decide)

/-- C8 counterexample: with stored timestamps 2, 1, 3 and a missing one, the
aborted in-place sort persists a partial permutation — the strictly-descending
prefix was reversed and the third element binary-inserted before the
missing-timestamp comparison raised — so the endpoint returns the events
reordered (second, first, third, fourth), not in their original retrieval
order, refuting the claim's missing-timestamp branch. -/
theorem track_partial_permutation_counterexample :
    get_documents_events
        ⟨[], [], [⟨"X", "s0", none, none, some 2⟩, ⟨"X", "s1", none, none, some 1⟩,
          ⟨"X", "s2", none, none, some 3⟩, ⟨"X", "s3", none, none, none⟩]⟩ "X" 50 =
      [⟨"X", "s0", none, none, some 2⟩, ⟨"X", "s1", none, none, some 1⟩,
        ⟨"X", "s2", none, none, some 3⟩, ⟨"X", "s3", none, none, none⟩] ∧
    get_tracking
        (some ⟨[], [], [⟨"X", "s0", none, none, some 2⟩, ⟨"X", "s1", none, none, some 1⟩,
          ⟨"X", "s2", none, none, some 3⟩, ⟨"X", "s3", none, none, none⟩]⟩) "X" =
      .ok ("X", [⟨"X", "s1", none, none, some 1⟩, ⟨"X", "s0", none, none, some 2⟩,
        ⟨"X", "s2", none, none, some 3⟩, ⟨"X", "s3", none, none, none⟩]) ∧
    ([⟨"X", "s1", none, none, some 1⟩, ⟨"X", "s0", none, none, some 2⟩,
        ⟨"X", "s2", none, none, some 3⟩, ⟨"X", "s3", none, none, none⟩] :
      List TrackRecord) ≠
      [⟨"X", "s0", none, none, some 2⟩, ⟨"X", "s1", none, none, some 1⟩,
        ⟨"X", "s2", none, none, some 3⟩, ⟨"X", "s3", none, none, none⟩] := by
  refine ⟨rfl, rfl, by decide⟩

/-- C8 (amended): on a non-empty retrieval the endpoint never propagates the
sorting exception and always returns a permutation of the retrieved events:
sorted by ascending timestamp when every record carries one; when any
timestamp is missing, the aborted in-place sort can leave a partially permuted
order, not necessarily the original retrieval order. -/
theorem track_sorted_or_permuted (st : Store) (tn : String)
    (hne : get_documents_events st tn 50 ≠ []) :
    ∃ evs, get_tracking (some st) tn = .ok (tn, evs) ∧
      evs.Perm (get_documents_events st tn 50) ∧
      ((∀ e ∈ get_documents_events st tn 50, e.timestamp.isSome) →
        evs.Pairwise fun a b => tsKey a ≤ tsKey b) :=
  ⟨pySort (get_documents_events st tn 50), get_tracking_ok_of_ne_nil st tn hne,
    pySort_perm _, fun hall => pySort_pairwise _ hall⟩

/-- Witness for C8's amended statement: a two-event store with timestamps 2
and 1 comes back as a sorted permutation of the retrieval. -/
theorem track_sorted_or_permuted_witness :
    get_documents_events ⟨[], [], [⟨"X", "a", none, none, some 2⟩,
      ⟨"X", "b", none, none, some 1⟩]⟩ "X" 50 ≠ [] ∧
    ∃ evs,
      get_tracking (some ⟨[], [], [⟨"X", "a", none, none, some 2⟩,
        ⟨"X", "b", none, none, some 1⟩]⟩) "X" = .ok ("X", evs) ∧
      evs.Perm (get_documents_events ⟨[], [], [⟨"X", "a", none, none, some 2⟩,
        ⟨"X", "b", none, none, some 1⟩]⟩ "X" 50) ∧
      evs.Pairwise fun a b => tsKey a ≤ tsKey b := by
  obtain ⟨evs, h1, h2, h3⟩ := track_sorted_or_permuted ⟨[], [],
    [⟨"X", "a", none, none, some 2⟩, ⟨"X", "b", none, none, some 1⟩]⟩ "X" (by decide)
  exact ⟨by decide, evs, h1, h2, h3 (by decide)⟩

/-! ### Claim theorem: schema invariants (C10) -/

/-- C10: every `Quote` or `Shipment` the schema constructor accepts has mode in
{air, sea, road}, every constructed `Shipment` has a status from the status
`Literal` set, and a request with any other mode makes both write endpoints
fail at construction with nothing persisted. -/
theorem schema_mode_status_invariant :
    (∀ (o d m : String) (w v pr : ℚ) (e : ℤ) (q : Quote),
      mkQuote o d m w v pr e = some q → ModeOK q.mode) ∧
    (∀ (tr o d m : String) (w v : ℚ) (sn se : String) (s : Shipment),
      mkShipment tr o d m w v sn se = some s → ModeOK s.mode ∧ StatusOK s.status) ∧
    (∀ (db : Option Store) (p : QuoteRequest), ¬ ModeOK p.mode →
      (create_quote db p).1 = .error .serverValidation ∧
      (create_quote db p).2.persisted = []) ∧
    (∀ (db : Option Store) (b : BookShipmentRequest) (picks : List Char) (now : ℚ),
      ¬ ModeOK b.mode →
      (book_shipment db b picks now).1 = .error .serverValidation ∧
      (book_shipment db b picks now).2.persisted = []) := by
  refine ⟨?_, ?_, ?_, ?_⟩
  · intro o d m w v pr e q h
    unfold mkQuote at h
    dsimp only at h
    split at h
    · rename_i hval
      cases h
      exact hval.1
    · exact Option.noConfusion h
  · intro tr o d m w v sn se s h
    unfold mkShipment at h
    dsimp only at h
    split at h
    · rename_i hval
      cases h
      exact ⟨hval.1, hval.2.2.2⟩
    · exact Option.noConfusion h
  · intro db p hm
    have hnv : ¬ Quote.Valid ⟨p.origin, p.destination, p.mode, p.weight_kg, p.volume_cbm,
        quotePrice p.mode p.weight_kg p.volume_cbm, etaDays p.mode⟩ := fun hval => hm hval.1
    have hrun : create_quote db p = (.error .serverValidation, ⟨true, []⟩) := by
      unfold create_quote mkQuote
      simp only [QuoteRequest.boundaryValid, if_true]
      rw [if_neg hnv]
    rw [hrun]
    exact ⟨rfl, rfl⟩
  · intro db b picks now hm
    have hnv : ¬ Shipment.Valid ⟨genTracking picks, b.origin, b.destination, b.mode,
        b.weight_kg, b.volume_cbm, b.shipper_name, b.shipper_email, "created", none⟩ :=
      fun hval => hm hval.1
    have hrun : book_shipment db b picks now = (.error .serverValidation, ⟨false, []⟩) := by
      unfold book_shipment mkShipment
      simp only [BookShipmentRequest.boundaryValid, if_true]
      rw [if_neg hnv]
    rw [hrun]
    exact ⟨rfl, rfl⟩

/-- Witness for C10: a concrete accepted quote has a legal mode, and a concrete
request with mode "truck" is rejected by both write endpoints with nothing
persisted. -/
theorem schema_mode_status_invariant_witness :
    ModeOK "sea" ∧ ¬ ModeOK "truck" ∧
    (create_quote (some ⟨[], [], []⟩) ⟨"A", "B", "truck", 1, 1⟩).1 =
      .error .serverValidation ∧
    (create_quote (some ⟨[], [], []⟩) ⟨"A", "B", "truck", 1, 1⟩).2.persisted = [] ∧
    (book_shipment (some ⟨[], [], []⟩) ⟨"A", "B", "truck", 1, 1, "N", "e@x"⟩ [] 0).1 =
      .error .serverValidation := by
  have hq := schema_mode_status_invariant.2.2.1 (some ⟨[], [], []⟩) ⟨"A", "B", "truck", 1, 1⟩
    (by decide)
  have hb := schema_mode_status_invariant.2.2.2 (some ⟨[], [], []⟩)
    ⟨"A", "B", "truck", 1, 1, "N", "e@x"⟩ [] 0 (by decide)
  exact ⟨by decide, by decide, hq.1, hq.2, hb.1⟩

end LogiFlow
